import Mathlib

/-!
Shallow embedding of the registration-form validation engine in
`src/app.ts` (class `FormValidator`): field identifiers, form records,
validation rules, per-field evaluation (`validateField`), whole-form
evaluation (`validateAll`), and the registered-email registry helpers
(`isEmailRegistered`, `saveEmail`).
-/

namespace FormValidation

/-- The four field identifiers (TS type `FieldName`). -/
inductive FieldId where
  | name
  | email
  | password
  | confirmPassword
deriving DecidableEq, Repr

/-- A full form record (TS interface `FormFields`): one string per field. -/
structure FormFields where
  name : String
  email : String
  password : String
  confirmPassword : String
deriving DecidableEq, Repr

/-- Field lookup `formData[field]`. -/
def fieldValue (r : FormFields) : FieldId → String
  | .name => r.name
  | .email => r.email
  | .password => r.password
  | .confirmPassword => r.confirmPassword

/-- The fixed field order of `this.fields`: name, email, password, confirmPassword. -/
def fields : List FieldId := [.name, .email, .password, .confirmPassword]

/-- Characters matched by the JavaScript regex class `\s` (also exactly the
characters removed by `String.prototype.trim`): tab, line feed, vertical tab,
form feed, carriage return, space, NBSP, the Unicode space separators, the
line/paragraph separators and the BOM. -/
def jsWhitespace (c : Char) : Bool :=
  c.toNat = 9 || c.toNat = 10 || c.toNat = 11 || c.toNat = 12 || c.toNat = 13 ||
  c.toNat = 32 || c.toNat = 160 || c.toNat = 0x1680 ||
  (0x2000 ≤ c.toNat && c.toNat ≤ 0x200A) ||
  c.toNat = 0x2028 || c.toNat = 0x2029 || c.toNat = 0x202F || c.toNat = 0x205F ||
  c.toNat = 0x3000 || c.toNat = 0xFEFF

/-- JavaScript `String.prototype.trim`: strip leading and trailing whitespace. -/
def jsTrim (s : String) : String :=
  ⟨((s.data.dropWhile jsWhitespace).reverse.dropWhile jsWhitespace).reverse⟩

/-- JavaScript `String.prototype.length`: number of UTF-16 code units
(characters above U+FFFF count as two). -/
def utf16Len (s : String) : Nat :=
  (s.data.map fun c => if c.toNat ≥ 0x10000 then 2 else 1).sum

/-- ASCII uppercase letter, the regex class `[A-Z]`. -/
def isUpperChar (c : Char) : Bool :=
  65 ≤ c.toNat && c.toNat ≤ 90

/-- ASCII lowercase letter, the regex class `[a-z]`. -/
def isLowerChar (c : Char) : Bool :=
  97 ≤ c.toNat && c.toNat ≤ 122

/-- ASCII digit, the regex class `[0-9]`. -/
def isDigitChar (c : Char) : Bool :=
  48 ≤ c.toNat && c.toNat ≤ 57

/-- Lowercase one character, modelling `String.prototype.toLowerCase` on the
ASCII range (the only range the emails in this development exercise). -/
def lowerChar (c : Char) : Char :=
  if 65 ≤ c.toNat ∧ c.toNat ≤ 90 then Char.ofNat (c.toNat + 32) else c

/-- JavaScript `String.prototype.toLowerCase`, restricted to ASCII case
mapping. -/
def jsToLower (s : String) : String :=
  ⟨s.data.map lowerChar⟩

/-- The regex test `/^[a-zA-Z\s]+$/.test(t)`: `t` is non-empty and every
character is an ASCII letter or a `\s` whitespace character. -/
def nameAlphaTest (t : String) : Bool :=
  !t.data.isEmpty &&
    t.data.all fun c => isUpperChar c || isLowerChar c || jsWhitespace c

/-- A character admitted by the regex class `[^\s@]`. -/
def emailAtomChar (c : Char) : Bool :=
  !jsWhitespace c && c != '@'

/-- The regex test `/^[^\s@]+@[^\s@]+\.[^\s@]+$/.test(t)`: a non-empty run of
`[^\s@]` characters before the first `@`, and after it a non-empty run of
`[^\s@]` characters containing a `.` that is neither its first nor its last
character. -/
def emailFormatTest (t : String) : Bool :=
  let l := t.data.takeWhile fun c => c != '@'
  match t.data.dropWhile fun c => c != '@' with
  | [] => false
  | _ :: domain =>
    !l.isEmpty && l.all emailAtomChar &&
      domain.all emailAtomChar && ((domain.drop 1).dropLast.contains '.')

/-- The special characters of the regex class in the password rule:
`! @ # $ % ^ & * ( ) , . ? " : \x7b \x7d | < >`. -/
def passwordSpecials : List Char :=
  ['!', '@', '#', '$', '%', '^', '&', '*', '(', ')', ',', '.', '?', '"',
   ':', '\x7b', '\x7d', '|', '<', '>']

/-- The regex test `/[!@#$%^&*(),.?":\x7b\x7d|<>]/.test(v)`. -/
def hasSpecialChar (v : String) : Bool :=
  v.data.any fun c => passwordSpecials.contains c

/-- A validation rule (TS interface `ValidationRule`): a predicate on the
value and the (optional) full record, plus the message shown on failure. -/
structure ValidationRule where
  validate : String → Option FormFields → Bool
  message : String

/-- The confirm-password equality predicate
`(v, data) => data ? v === data.password : false`: fails closed when the
record is absent. -/
def confirmMatches (v : String) (data : Option FormFields) : Bool :=
  match data with
  | some d => v == d.password
  | none => false

/-- Membership test `FormValidator.isEmailRegistered`: the registry contains
the lowercased email. -/
def isEmailRegistered (registry : List String) (email : String) : Bool :=
  registry.contains (jsToLower email)

/-- The rule catalog `this.rules`, parameterised by the registered-email
registry that `isEmailRegistered` reads from storage. -/
def rules (registry : List String) : FieldId → List ValidationRule
  | .name =>
    [⟨fun v _ => decide (0 < utf16Len (jsTrim v)), "Name is required"⟩,
     ⟨fun v _ => decide (2 ≤ utf16Len (jsTrim v)),
       "Name must be at least 2 characters long"⟩,
     ⟨fun v _ => nameAlphaTest (jsTrim v),
       "Name can only contain letters and spaces"⟩]
  | .email =>
    [⟨fun v _ => decide (0 < utf16Len (jsTrim v)), "Email is required"⟩,
     ⟨fun v _ => emailFormatTest (jsTrim v),
       "Please enter a valid email address"⟩,
     ⟨fun v _ => !isEmailRegistered registry (jsTrim v),
       "This email is already registered"⟩]
  | .password =>
    [⟨fun v _ => decide (0 < utf16Len v), "Password is required"⟩,
     ⟨fun v _ => decide (8 ≤ utf16Len v),
       "Password must be at least 8 characters long"⟩,
     ⟨fun v _ => v.data.any isUpperChar,
       "Password must contain at least one uppercase letter"⟩,
     ⟨fun v _ => v.data.any isLowerChar,
       "Password must contain at least one lowercase letter"⟩,
     ⟨fun v _ => v.data.any isDigitChar,
       "Password must contain at least one number"⟩,
     ⟨fun v _ => hasSpecialChar v,
       "Password must contain at least one special character"⟩]
  | .confirmPassword =>
    [⟨fun v _ => decide (0 < utf16Len v), "Please confirm your password"⟩,
     ⟨confirmMatches, "Passwords do not match"⟩]

/-- The outcome of validating one field: `Valid`, or `Invalid` carrying the
message displayed in the error element of the field. -/
inductive FieldOutcome where
  | Valid
  | Invalid (message : String)
deriving DecidableEq, Repr

/-- The rule loop inside `validateField`: run the rules in order, return
`Invalid` with the message of the first failing rule, `Valid` when all pass. -/
def evalRules (v : String) (d : Option FormFields) :
    List ValidationRule → FieldOutcome
  | [] => .Valid
  | r :: rs => if r.validate v d then evalRules v d rs else .Invalid r.message

/-- `FormValidator.validateField`: evaluate the rule chain of the field on
`(formData[field], formData)`. The DOM effects (CSS classes, error text) are
abstracted into the returned `FieldOutcome`. -/
def validateField (registry : List String) (field : FieldId)
    (record : FormFields) : FieldOutcome :=
  evalRules (fieldValue record field) (some record) (rules registry field)

/-- The evaluation of `this.fields.every(field => this.validateField(field))`
over a list of fields, recording both the boolean result and the list of
fields on which `validateField` (with its visible DOM effects) actually ran:
`Array.prototype.every` stops at the first callback returning false. -/
def runEvery (registry : List String) (record : FormFields) :
    List FieldId → Bool × List FieldId
  | [] => (true, [])
  | f :: fs =>
    if validateField registry f record = .Valid then
      let p := runEvery registry record fs
      (p.1, f :: p.2)
    else
      (false, [f])

/-- `FormValidator.validateAll`: the boolean result of
`this.fields.every(field => this.validateField(field))`. -/
def validateAll (registry : List String) (record : FormFields) : Bool :=
  (runEvery registry record fields).1

/-- The fields on which `validateField` is actually invoked during
`validateAll` (in invocation order). -/
def evaluatedFields (registry : List String) (record : FormFields) :
    List FieldId :=
  (runEvery registry record fields).2

/-- `FormValidator.saveEmail`: append the lowercased email to the registry
unless it is already present. -/
def saveEmail (email : String) (registry : List String) : List String :=
  if registry.contains (jsToLower email) then registry
  else registry ++ [jsToLower email]

/-- Refinement-side predicate following the words of the spec for the name
character-class rule: the trimmed value "matches `^[A-Za-z ]+$` (letters and
spaces only)" — only ASCII letters and the space character itself. -/
def specLettersAndSpaces (t : String) : Bool :=
  !t.data.isEmpty && t.data.all fun c => isUpperChar c || isLowerChar c || c == ' '

/-! ### Helper lemmas -/

theorem evalRules_valid_iff (v : String) (d : Option FormFields)
    (rs : List ValidationRule) :
    evalRules v d rs = .Valid ↔ ∀ r ∈ rs, r.validate v d = true := by
  induction rs with
  | nil => simp [evalRules]
  | cons r rs ih =>
    by_cases h : r.validate v d
    · simp [evalRules, h, ih]
    · simp only [evalRules, Bool.not_eq_true] at h ⊢
      rw [if_neg (by simp [h])]
      simp only [List.mem_cons]
      constructor
      · intro hfalse
        exact absurd hfalse (by simp)
      · intro hall
        exact absurd (hall r (Or.inl rfl)) (by simp [h])

theorem evalRules_first_fail (v : String) (d : Option FormFields) :
    ∀ (rs : List ValidationRule) (k : Nat) (hk : k < rs.length),
    (∀ j, (hj : j < k) → (rs.get ⟨j, Nat.lt_trans hj hk⟩).validate v d = true) →
    (rs.get ⟨k, hk⟩).validate v d = false →
    evalRules v d rs = .Invalid (rs.get ⟨k, hk⟩).message := by
  intro rs
  induction rs with
  | nil => intro k hk; exact absurd hk (Nat.not_lt_zero k)
  | cons r rs ih =>
    intro k hk hprev hfail
    cases k with
    | zero =>
      simp only [List.get] at hfail ⊢
      simp [evalRules, hfail]
    | succ k =>
      have hr : r.validate v d = true := hprev 0 (Nat.succ_pos k)
      simp only [List.get] at hfail ⊢
      simp only [evalRules, hr, if_true]
      exact ih k (Nat.lt_of_succ_lt_succ hk)
        (fun j hj => hprev (j + 1) (Nat.succ_lt_succ hj)) hfail

theorem runEvery_fst (registry : List String) (record : FormFields)
    (l : List FieldId) :
    (runEvery registry record l).1 = true ↔
      ∀ f ∈ l, validateField registry f record = .Valid := by
  induction l with
  | nil => simp [runEvery]
  | cons f fs ih =>
    by_cases h : validateField registry f record = .Valid
    · simp [runEvery, h, ih]
    · simp [runEvery, h]

theorem runEvery_snd (registry : List String) (record : FormFields)
    (l : List FieldId) :
    (runEvery registry record l).2 =
      (l.takeWhile fun f => decide (validateField registry f record = .Valid)) ++
      ((l.dropWhile fun f =>
          decide (validateField registry f record = .Valid)).take 1) := by
  induction l with
  | nil => simp [runEvery]
  | cons f fs ih =>
    by_cases h : validateField registry f record = .Valid
    · simp [runEvery, h, ih, List.takeWhile_cons, List.dropWhile_cons]
    · simp [runEvery, h, List.takeWhile_cons, List.dropWhile_cons]

theorem toNat_ofNat_of_small (n : Nat) (h : n < 0xd800) :
    (Char.ofNat n).toNat = n := by
  rw [Char.ofNat, dif_pos (Or.inl h)]
  rfl

theorem lowerChar_idem (c : Char) : lowerChar (lowerChar c) = lowerChar c := by
  unfold lowerChar
  by_cases h : 65 ≤ c.toNat ∧ c.toNat ≤ 90
  · rw [if_pos h]
    have hv : (Char.ofNat (c.toNat + 32)).toNat = c.toNat + 32 :=
      toNat_ofNat_of_small _ (by omega)
    rw [if_neg (by omega)]
  · rw [if_neg h, if_neg h]

theorem jsToLower_idem (s : String) : jsToLower (jsToLower s) = jsToLower s := by
  unfold jsToLower
  simp only [List.map_map]
  congr 1
  exact List.map_congr_left fun c _ => lowerChar_idem c

/-! ### Claim theorems -/

/-- C1, counterexample: on a record whose `name` is empty (so its first rule
fails) while every other field would validate, `validateAll` runs
`validateField` only on `name` — not on all four fields as the claim states,
because `Array.prototype.every` stops at the first false callback result. -/
theorem C1_counterexample :
    evaluatedFields [] ⟨"", "a@b.com", "Password1!", "Password1!"⟩ =
      [FieldId.name] ∧
    validateField [] FieldId.name ⟨"", "a@b.com", "Password1!", "Password1!"⟩ =
      FieldOutcome.Invalid "Name is required" ∧
    [FieldId.name] ≠ fields := by
  decide

/-- C1, amended: `validateAll` runs `validateField` in the fixed field order
(name, email, password, confirmPassword) but short-circuits at the first
field whose outcome is not `Valid`: the fields actually evaluated are the
longest prefix of fields with `Valid` outcome followed by the first failing
field when one exists; fields after the first failing field are never
evaluated. -/
theorem C1_validateAll_short_circuits (registry : List String)
    (record : FormFields) :
    evaluatedFields registry record =
      (fields.takeWhile fun f =>
        decide (validateField registry f record = .Valid)) ++
      ((fields.dropWhile fun f =>
        decide (validateField registry f record = .Valid)).take 1) := by
  unfold evaluatedFields
  exact runEvery_snd registry record fields

/-- C2: `validateField` returns `Valid` iff the predicate of every rule holds on
`(record[field], record)`, and whenever the rules before index `k` all pass
and rule `k` fails, the result is `Invalid` with exactly the message of rule `k`,
whatever the rules after index `k` would return (short-circuit). -/
theorem C2_first_failing_message (registry : List String) (field : FieldId)
    (record : FormFields) :
    (validateField registry field record = .Valid ↔
      ∀ r ∈ rules registry field,
        r.validate (fieldValue record field) (some record) = true) ∧
    (∀ (k : Nat) (hk : k < (rules registry field).length),
      (∀ j, (hj : j < k) →
        ((rules registry field).get ⟨j, Nat.lt_trans hj hk⟩).validate
          (fieldValue record field) (some record) = true) →
      ((rules registry field).get ⟨k, hk⟩).validate
          (fieldValue record field) (some record) = false →
      validateField registry field record =
        .Invalid ((rules registry field).get ⟨k, hk⟩).message) := by
  unfold validateField
  exact ⟨evalRules_valid_iff _ _ _,
    fun k hk hprev hfail => evalRules_first_fail _ _ _ k hk hprev hfail⟩

/-- C2 witness: the name value "3" fails the length rule (index 1) and the
character-class rule (index 2) simultaneously; the reported message is the
one of the length rule, the first failing rule. -/
theorem C2_witness :
    validateField [] FieldId.name ⟨"3", "", "", ""⟩ =
      FieldOutcome.Invalid "Name must be at least 2 characters long" := by
  refine (C2_first_failing_message [] FieldId.name ⟨"3", "", "", ""⟩).2
    1 (by decide) ?_ ?_
  · intro j hj
    interval_cases j
    exact (by decide :
      ((rules [] FieldId.name).get ⟨0, by decide⟩).validate
        (fieldValue ⟨"3", "", "", ""⟩ FieldId.name)
        (some ⟨"3", "", "", ""⟩) = true)
  · exact (by decide :
      ((rules [] FieldId.name).get ⟨1, by decide⟩).validate
        (fieldValue ⟨"3", "", "", ""⟩ FieldId.name)
        (some ⟨"3", "", "", ""⟩) = false)

/-- C3: `validateAll` returns true iff `validateField` returns `Valid` on
every one of the four fields. -/
theorem C3_validateAll_iff_all_valid (registry : List String)
    (record : FormFields) :
    validateAll registry record = true ↔
      ∀ f ∈ fields, validateField registry f record = .Valid := by
  unfold validateAll
  exact runEvery_fst registry record fields

/-- C4: for a non-empty confirm-password value the outcome is `Valid` iff it
equals `record.password` character for character; the equality predicate
fails closed on an absent record; and the two concrete examples of the spec. -/
theorem C4_confirmPassword_exact_match (registry : List String)
    (record : FormFields) :
    (0 < utf16Len record.confirmPassword →
      (validateField registry .confirmPassword record = .Valid ↔
        record.confirmPassword = record.password)) ∧
    (∀ v, confirmMatches v none = false) ∧
    validateField registry .confirmPassword ⟨"n", "e", "Abc12345!", "abc12345!"⟩ =
      .Invalid "Passwords do not match" ∧
    validateField registry .confirmPassword ⟨"n", "e", "Abc12345!", "Abc12345!"⟩ =
      .Valid := by
  refine ⟨?_, fun v => rfl, rfl, rfl⟩
  intro h
  have h1 : decide (0 < utf16Len record.confirmPassword) = true := decide_eq_true h
  simp only [validateField, rules, fieldValue, evalRules, confirmMatches, h1,
    if_true]
  by_cases hv : record.confirmPassword = record.password
  · simp [hv]
  · simp [hv, beq_eq_false_iff_ne.mpr hv]

/-- C4 witness: matching passwords with a non-empty confirm value give
`Valid`. -/
theorem C4_witness :
    validateField [] FieldId.confirmPassword ⟨"n", "e", "Abc12345!", "Abc12345!"⟩ =
      FieldOutcome.Valid :=
  ((C4_confirmPassword_exact_match [] ⟨"n", "e", "Abc12345!", "Abc12345!"⟩).1
    (by decide)).mpr rfl

/-- C5, counterexample: the name value with an interior tab, "a" ++ tab ++
"b", has a non-empty trimmed form of length 3 ≥ 2 and is not made of letters
and spaces only (the tab is neither), yet the code validates it as `Valid`,
because the source regex class is `[a-zA-Z\s]` — any whitespace — not
`[A-Za-z ]` as the claim states. -/
theorem C5_counterexample :
    0 < utf16Len (jsTrim "a\tb") ∧ 2 ≤ utf16Len (jsTrim "a\tb") ∧
    specLettersAndSpaces (jsTrim "a\tb") = false ∧
    validateField [] FieldId.name ⟨"a\tb", "", "", ""⟩ = FieldOutcome.Valid := by
  decide

/-- C5, amended: for every name value whose trimmed form is non-empty with
length at least 2, the outcome is `Valid` iff the trimmed value matches
`^[a-zA-Z\s]+$` (ASCII letters and any `\s` whitespace character, not just
the space), otherwise `Invalid` with the character-class message; "Al" is
`Valid`, "A" fails the length rule and "Anna3" fails the character-class
rule. -/
theorem C5_name_charclass (registry : List String) (record : FormFields) :
    ((0 < utf16Len (jsTrim record.name) → 2 ≤ utf16Len (jsTrim record.name) →
      ((validateField registry .name record = .Valid ↔
        nameAlphaTest (jsTrim record.name) = true) ∧
       (nameAlphaTest (jsTrim record.name) = false →
        validateField registry .name record =
          .Invalid "Name can only contain letters and spaces"))) ∧
     validateField registry .name ⟨"Al", "", "", ""⟩ = .Valid ∧
     validateField registry .name ⟨"A", "", "", ""⟩ =
       .Invalid "Name must be at least 2 characters long" ∧
     validateField registry .name ⟨"Anna3", "", "", ""⟩ =
       .Invalid "Name can only contain letters and spaces") := by
  refine ⟨?_, rfl, rfl, rfl⟩
  intro h1 h2
  have d1 : decide (0 < utf16Len (jsTrim record.name)) = true := decide_eq_true h1
  have d2 : decide (2 ≤ utf16Len (jsTrim record.name)) = true := decide_eq_true h2
  simp only [validateField, rules, fieldValue, evalRules, d1, d2, if_true]
  by_cases hv : nameAlphaTest (jsTrim record.name)
  · simp [hv]
  · simp [hv]

/-- C5 witness: "Anna3" passes the non-empty and length rules but fails the
character-class rule. -/
theorem C5_witness :
    validateField [] FieldId.name ⟨"Anna3", "", "", ""⟩ =
      FieldOutcome.Invalid "Name can only contain letters and spaces" :=
  ((C5_name_charclass [] ⟨"Anna3", "", "", ""⟩).1 (by decide) (by decide)).2
    (by decide)

/-- C6: the password character-class rules fire in order after the non-empty
and length rules: "password" trips the uppercase rule, "Password" the number
rule, "Password1" the special-character rule, and "Password1!" passes all
six rules. -/
theorem C6_password_rule_order (registry : List String) :
    validateField registry .password ⟨"", "", "password", ""⟩ =
      .Invalid "Password must contain at least one uppercase letter" ∧
    validateField registry .password ⟨"", "", "Password", ""⟩ =
      .Invalid "Password must contain at least one number" ∧
    validateField registry .password ⟨"", "", "Password1", ""⟩ =
      .Invalid "Password must contain at least one special character" ∧
    validateField registry .password ⟨"", "", "Password1!", ""⟩ = .Valid :=
  ⟨rfl, rfl, rfl, rfl⟩

/-- C7: the email required rule precedes and fires before the format rule:
the empty value reports "Email is required", "a@b" reports the format
message, and "a@b.com" passes both structural checks (and is `Valid` under an
empty registry). -/
theorem C7_email_rule_order (registry : List String) :
    validateField registry .email ⟨"", "", "", ""⟩ =
      .Invalid "Email is required" ∧
    validateField registry .email ⟨"", "a@b", "", ""⟩ =
      .Invalid "Please enter a valid email address" ∧
    (0 < utf16Len (jsTrim "a@b.com") ∧ emailFormatTest (jsTrim "a@b.com") = true) ∧
    validateField [] .email ⟨"", "a@b.com", "", ""⟩ = .Valid :=
  ⟨rfl, rfl, by decide, rfl⟩

/-- C8: the uniqueness rule matches case-insensitively: with "x@y.com" in the
registry, the value "X@Y.com" (which passes the required and format rules) is
reported as already registered. -/
theorem C8_uniqueness_case_insensitive :
    validateField ["x@y.com"] FieldId.email ⟨"", "X@Y.com", "", ""⟩ =
      FieldOutcome.Invalid "This email is already registered" := by
  decide

/-- C9: `saveEmail` preserves the registry invariant: starting from a
duplicate-free registry of lowercase entries, the resulting registry is still
duplicate-free, all lowercase, and contains the lowercased saved email. -/
theorem C9_saveEmail_invariant (registry : List String) (e : String)
    (hlow : ∀ s ∈ registry, jsToLower s = s) (hnd : registry.Nodup) :
    (∀ s ∈ saveEmail e registry, jsToLower s = s) ∧
    (saveEmail e registry).Nodup ∧
    jsToLower e ∈ saveEmail e registry := by
  unfold saveEmail
  by_cases h : registry.contains (jsToLower e) = true
  · rw [if_pos h]
    exact ⟨hlow, hnd, List.elem_iff.mp h⟩
  · rw [if_neg h]
    have hmem : jsToLower e ∉ registry := fun hm => h (List.elem_iff.mpr hm)
    refine ⟨?_, ?_, List.mem_append.mpr (Or.inr (List.mem_singleton.mpr rfl))⟩
    · intro s hs
      rcases List.mem_append.mp hs with hs | hs
      · exact hlow s hs
      · rw [List.mem_singleton.mp hs]
        exact jsToLower_idem e
    · exact List.nodup_append.mpr
        ⟨hnd, List.nodup_singleton _, List.disjoint_singleton.mpr hmem⟩

/-- C9 witness: saving "A@B.com" into the registry containing only
"x@y.com". -/
theorem C9_witness :
    (∀ s ∈ (["x@y.com"] : List String), jsToLower s = s) ∧
    (["x@y.com"] : List String).Nodup ∧
    jsToLower "A@B.com" ∈ saveEmail "A@B.com" ["x@y.com"] :=
  ⟨by decide, by decide,
    (C9_saveEmail_invariant ["x@y.com"] "A@B.com" (by decide) (by decide)).2.2⟩

/-- C10: per-field noninterference: the name outcome depends only on the name
value, the password outcome only on the password value, the email outcome
only on the email value (under the same registry), and the confirm-password
outcome only on the confirm-password and password values. -/
theorem C10_noninterference (registry : List String) (r1 r2 : FormFields) :
    (r1.name = r2.name →
      validateField registry .name r1 = validateField registry .name r2) ∧
    (r1.password = r2.password →
      validateField registry .password r1 =
        validateField registry .password r2) ∧
    (r1.email = r2.email →
      validateField registry .email r1 = validateField registry .email r2) ∧
    (r1.confirmPassword = r2.confirmPassword → r1.password = r2.password →
      validateField registry .confirmPassword r1 =
        validateField registry .confirmPassword r2) := by
  obtain ⟨n1, e1, p1, c1⟩ := r1
  obtain ⟨n2, e2, p2, c2⟩ := r2
  refine ⟨fun h => ?_, fun h => ?_, fun h => ?_, fun h h2 => ?_⟩
  · obtain rfl : n1 = n2 := h
    rfl
  · obtain rfl : p1 = p2 := h
    rfl
  · obtain rfl : e1 = e2 := h
    rfl
  · obtain rfl : c1 = c2 := h
    obtain rfl : p1 = p2 := h2
    rfl

/-- C10 witness: two records sharing only the name value give the same name
outcome. -/
theorem C10_witness :
    validateField [] FieldId.name ⟨"Al", "a@b.com", "pw", "pw"⟩ =
      validateField [] FieldId.name ⟨"Al", "c@d.org", "qq", "rr"⟩ :=
  (C10_noninterference [] ⟨"Al", "a@b.com", "pw", "pw"⟩
    ⟨"Al", "c@d.org", "qq", "rr"⟩).1 rfl

end FormValidation

